import Mathlib

/-!
Verification development for the tungo reverse-HTTP-tunnel server
(github.com/sombochea/tungo).  The Go sources are shallowly embedded:
pure functions become Lean functions, stateful components become explicit
state-passing functions, machine integers become `Nat`, time becomes a
`Nat` of milliseconds passed in explicitly, and Go's `select` statements
become functions over the sequence of events the select observed.
-/

namespace TunGo

/-! ## Association-list helpers

Go `map` values are modelled as association lists.  `ainsert` mirrors a Go
map assignment `m[k] = v` (overwrite), `aerase` mirrors `delete(m, k)`,
`alookup` mirrors `v, ok := m[k]`. -/

def alookup {α : Type} : List (String × α) → String → Option α
  | [], _ => none
  | (k, v) :: rest, key => if k = key then some v else alookup rest key

def aerase {α : Type} : List (String × α) → String → List (String × α)
  | [], _ => []
  | (a, b) :: rest, k => if a = k then aerase rest k else (a, b) :: aerase rest k

def ainsert {α : Type} (l : List (String × α)) (k : String) (v : α) : List (String × α) :=
  (k, v) :: aerase l k

def aupdate {α : Type} (l : List (String × α)) (k : String) (f : α → α) : List (String × α) :=
  l.map (fun p => if p.1 = k then (p.1, f p.2) else p)

/-! ## Protocol: subdomain validation

Embedding of `ValidateSubDomain` (pkg/protocol).  Go iterates
`for i, c := range subDomain` where `i` is the byte offset of the rune `c`
and `len` is the byte length of the string; we therefore track UTF-8 byte
offsets explicitly.  Error sites are modelled by an inductive mirroring the
four distinct error messages of the source. -/

/-- Byte size of a rune in UTF-8, as Go's `len` counts it (valid UTF-8). -/
def goUtf8Size (c : Char) : Nat :=
  if c.toNat ≤ 127 then 1 else if c.toNat ≤ 2047 then 2
  else if c.toNat ≤ 65535 then 3 else 4

/-- Go `len(s)` on a string: total UTF-8 byte length. -/
def goStrLen (s : List Char) : Nat := (s.map goUtf8Size).sum

/-- The character test of `ValidateSubDomain`: Go compares rune code points
`(c >= 'a' && c <= 'z') || (c >= '0' && c <= '9') || c == '-'`. -/
def subCharOk (c : Char) : Bool :=
  (97 ≤ c.toNat && c.toNat ≤ 122) || (48 ≤ c.toNat && c.toNat ≤ 57) || c.toNat == 45

inductive SubDomainErr where
  | empty          -- "subdomain cannot be empty"
  | tooLong        -- "subdomain too long (max 63 characters)"
  | invalidChar (c : Char)  -- "subdomain contains invalid character: %c"
  | edgeHyphen     -- "subdomain cannot start or end with hyphen"
deriving DecidableEq

/-- The character loop of `ValidateSubDomain`: `i` is the UTF-8 byte offset
of the current rune and `n` the byte length of the whole string. -/
def validateChars (i n : Nat) : List Char → Option SubDomainErr
  | [] => none
  | c :: rest =>
    if ¬ subCharOk c then some (.invalidChar c)
    else if c.toNat == 45 && (i == 0 || i == n - 1) then some .edgeHyphen
    else validateChars (i + goUtf8Size c) n rest

/-- `ValidateSubDomain` (pkg/protocol): `none` means valid. -/
def ValidateSubDomain (s : String) : Option SubDomainErr :=
  if goStrLen s.data = 0 then some .empty
  else if 63 < goStrLen s.data then some .tooLong
  else validateChars 0 (goStrLen s.data) s.data

/-- The specification-side acceptance predicate for subdomains: length 1..63,
every character in `[a-z0-9-]`, no leading or trailing hyphen. -/
def SubDomainSpec (s : String) : Prop :=
  1 ≤ s.data.length ∧ s.data.length ≤ 63 ∧ (∀ c ∈ s.data, subCharOk c) ∧
  s.data.head? ≠ some '-' ∧ s.data.getLast? ≠ some '-'

instance (s : String) : Decidable (SubDomainSpec s) := by
  unfold SubDomainSpec; infer_instance

/-! ## Protocol: random subdomain generation

Embedding of `GenerateRandomSubDomain` (pkg/protocol).  The source draws 6
random bytes, base64-URL-encodes them (8 characters, no padding), lowercases
the result, deletes every `_` and `-`, and truncates to 8 characters.  The
drawn bytes are passed in explicitly. -/

/-- The base64 URL alphabet (RFC 4648 `URLEncoding`). -/
def b64UrlAlphabet : List Char :=
  "ABCDEFGHIJKLMNOPQRSTUVWXYZabcdefghijklmnopqrstuvwxyz0123456789-_".data

def b64Char (i : Nat) : Char := b64UrlAlphabet.getD i 'A'

/-- Base64 of one 3-byte group: four 6-bit indices. -/
def b64Group (a b c : Nat) : List Nat :=
  [a / 4, (a % 4) * 16 + b / 16, (b % 16) * 4 + c / 64, c % 64]

/-- `base64.URLEncoding.EncodeToString` on exactly 6 bytes (two full groups,
no padding). -/
def b64UrlEncode6 (b0 b1 b2 b3 b4 b5 : Nat) : List Char :=
  ((b64Group b0 b1 b2) ++ (b64Group b3 b4 b5)).map b64Char

/-- Go `strings.ToLower` on one rune (ASCII range suffices here). -/
def goToLower (c : Char) : Char :=
  if 65 ≤ c.toNat ∧ c.toNat ≤ 90 then Char.ofNat (c.toNat + 32) else c

/-- `GenerateRandomSubDomain` (pkg/protocol) as a function of the 6 random
bytes drawn from `crypto/rand`. -/
def GenerateRandomSubDomain (b0 b1 b2 b3 b4 b5 : Nat) : List Char :=
  let encoded := (b64UrlEncode6 b0 b1 b2 b3 b4 b5).map goToLower
  let encoded := encoded.filter (fun c => c ≠ '_')
  let encoded := encoded.filter (fun c => c ≠ '-')
  if 8 < encoded.length then encoded.take 8 else encoded

/-- Lowercase-alphanumeric predicate used by the spec sentence. -/
def lowerAlnum (c : Char) : Bool :=
  (97 ≤ c.toNat && c.toNat ≤ 122) || (48 ≤ c.toNat && c.toNat ≤ 57)

/-! ## SHA-256

`crypto/sha256` is used by the source in two places that the claims touch:
the deterministic client id `base64(sha256(secret_key.key))`
(`SecretKey.ClientIDFromKey`) and the tenant-password cookie value
`fmt.Sprintf("%x", sha256.Sum256([]byte(password)))`.  Standard FIPS 180-4
SHA-256 over byte lists, words as `Nat` reduced mod `2^32`. -/

def w32 (x : Nat) : Nat := x % 4294967296

def rotr32 (n x : Nat) : Nat := w32 ((x >>> n) ||| (x <<< (32 - n)))

def sha256K : List Nat :=
  [1116352408, 1899447441, 3049323471, 3921009573, 961987163, 1508970993,
   2453635748, 2870763221, 3624381080, 310598401, 607225278, 1426881987,
   1925078388, 2162078206, 2614888103, 3248222580, 3835390401, 4022224774,
   264347078, 604807628, 770255983, 1249150122, 1555081692, 1996064986,
   2554220882, 2821834349, 2952996808, 3210313671, 3336571891, 3584528711,
   113926993, 338241895, 666307205, 773529912, 1294757372, 1396182291,
   1695183700, 1986661051, 2177026350, 2456956037, 2730485921, 2820302411,
   3259730800, 3345764771, 3516065817, 3600352804, 4094571909, 275423344,
   430227734, 506948616, 659060556, 883997877, 958139571, 1322822218,
   1537002063, 1747873779, 1955562222, 2024104815, 2227730452, 2361852424,
   2428436474, 2756734187, 3204031479, 3329325298]

def sha256H0 : List Nat :=
  [1779033703, 3144134277, 1013904242, 2773480762,
   1359893119, 2600822924, 528734635, 1541459225]

/-- Append the SHA-256 padding: `0x80`, zeros to 56 mod 64, 8-byte
big-endian bit length. -/
def sha256Pad (msg : List Nat) : List Nat :=
  let len := msg.length
  let bitLen := 8 * len
  let z := (119 - len % 64) % 64
  msg ++ [128] ++ List.replicate z 0 ++
    [w32 (bitLen >>> 56) % 256, (bitLen >>> 48) % 256, (bitLen >>> 40) % 256,
     (bitLen >>> 32) % 256, (bitLen >>> 24) % 256, (bitLen >>> 16) % 256,
     (bitLen >>> 8) % 256, bitLen % 256]

/-- Split a byte list into 64-byte chunks (fuel = list length). -/
def chunks64Aux : Nat → List Nat → List (List Nat)
  | 0, _ => []
  | _, [] => []
  | fuel + 1, l => l.take 64 :: chunks64Aux fuel (l.drop 64)

def chunks64 (l : List Nat) : List (List Nat) := chunks64Aux l.length l

/-- Group 4 bytes big-endian into one 32-bit word (fuel on length). -/
def beWordsAux : Nat → List Nat → List Nat
  | 0, _ => []
  | _, [] => []
  | fuel + 1, l =>
    (l.getD 0 0 * 16777216 + l.getD 1 0 * 65536 + l.getD 2 0 * 256 + l.getD 3 0)
      :: beWordsAux fuel (l.drop 4)

def beWords (l : List Nat) : List Nat := beWordsAux l.length l

/-- Extend the first 16 words of a block to the 64-word message schedule. -/
def sha256Schedule (ws : Array Nat) : Array Nat :=
  (List.range 48).foldl (fun w i =>
    let x15 := w.getD (i + 1) 0
    let x2 := w.getD (i + 14) 0
    let s0 := (rotr32 7 x15) ^^^ (rotr32 18 x15) ^^^ (x15 >>> 3)
    let s1 := (rotr32 17 x2) ^^^ (rotr32 19 x2) ^^^ (x2 >>> 10)
    w.push (w32 (w.getD i 0 + s0 + w.getD (i + 9) 0 + s1))) ws

/-- One compression round. -/
def sha256Round (st : List Nat) (k w : Nat) : List Nat :=
  let a := st.getD 0 0; let b := st.getD 1 0; let c := st.getD 2 0
  let d := st.getD 3 0; let e := st.getD 4 0; let f := st.getD 5 0
  let g := st.getD 6 0; let h := st.getD 7 0
  let s1 := (rotr32 6 e) ^^^ (rotr32 11 e) ^^^ (rotr32 25 e)
  let ch := (e &&& f) ^^^ ((4294967295 - e) &&& g)
  let t1 := w32 (h + s1 + ch + k + w)
  let s0 := (rotr32 2 a) ^^^ (rotr32 13 a) ^^^ (rotr32 22 a)
  let mj := (a &&& b) ^^^ (a &&& c) ^^^ (b &&& c)
  let t2 := w32 (s0 + mj)
  [w32 (t1 + t2), a, b, c, w32 (d + t1), e, f, g]

/-- Compress one 64-byte block into the running hash state. -/
def sha256Block (h : List Nat) (block : List Nat) : List Nat :=
  let w := sha256Schedule (Array.mk (beWords block))
  let st := (List.range 64).foldl
    (fun st i => sha256Round st (sha256K.getD i 0) (w.getD i 0)) h
  (List.range 8).map (fun i => w32 (h.getD i 0 + st.getD i 0))

/-- SHA-256 digest (32 bytes) of a byte list. -/
def sha256Bytes (msg : List Nat) : List Nat :=
  let final := (chunks64 (sha256Pad msg)).foldl sha256Block sha256H0
  final.foldr (fun word acc =>
    [word >>> 24 % 256, word >>> 16 % 256, word >>> 8 % 256, word % 256] ++ acc) []

def hexDigit (n : Nat) : Char := "0123456789abcdef".data.getD n '0'

/-- Go `fmt.Sprintf("%x", bytes)`: lowercase hex. -/
def toHexLower (bs : List Nat) : String :=
  String.mk ((bs.map (fun b => [hexDigit (b / 16), hexDigit (b % 16)])).flatten)

/-- UTF-8 bytes of a string, Go `[]byte(s)`. -/
def strBytes (s : String) : List Nat := s.toUTF8.toList.map (fun b => b.toNat)

/-- `fmt.Sprintf("%x", sha256.Sum256([]byte(s)))` — the tenant-password
cookie value. -/
def hexSha256 (s : String) : String := toHexLower (sha256Bytes (strBytes s))

/-! Standard base64 with padding (`base64.StdEncoding`), for
`SecretKey.ClientIDFromKey`. -/

def b64StdAlphabet : List Char :=
  "ABCDEFGHIJKLMNOPQRSTUVWXYZabcdefghijklmnopqrstuvwxyz0123456789+/".data

def b64StdEncode : List Nat → List Char
  | a :: b :: c :: rest =>
    (b64Group a b c).map (b64StdAlphabet.getD · 'A') ++ b64StdEncode rest
  | [a, b] =>
    ([a / 4, (a % 4) * 16 + b / 16, (b % 16) * 4].map (b64StdAlphabet.getD · 'A')) ++ ['=']
  | [a] =>
    ([a / 4, (a % 4) * 16].map (b64StdAlphabet.getD · 'A')) ++ ['=', '=']
  | [] => []

/-- `SecretKey.ClientIDFromKey` (pkg/protocol):
`base64.StdEncoding.EncodeToString(sha256.Sum256([]byte(key)))`. -/
def ClientIDFromKey (key : String) : String :=
  String.mk (b64StdEncode (sha256Bytes (strBytes key)))

/-! ## Connection manager (internal/server/connection_manager.go)

Connection objects live in an arena (`conns`, index = creation order) so
that a replaced or removed `ClientConnection` remains observable, exactly
as a dropped Go pointer still refers to the same object.  The two maps of
`ConnectionManager` index into the arena. -/

/-- A `Stream`: `doneClosed` records whether its `Done` channel has been
closed (liveness revoked); `dataChanLen` the number of chunks queued in its
512-slot `DataChan`. -/
structure StreamEntry where
  protocol : String
  remoteAddr : String
  dataChanLen : Nat
  doneClosed : Bool
deriving DecidableEq

/-- Capacity of the `Send` queue and of stream `DataChan` channels — both
`make(chan []byte, 512)` in `AddClient` / `AddStream`. -/
def sendQueueCapacity : Nat := 512

/-- A `ClientConnection`.  `doneClosed` records whether `Done` was closed,
`sendLen` the number of queued outbound messages.  `password` is the
per-tenant password consulted by the public catch-all handler
(`client.Password`); the struct snapshot under src predates that field, so
it is modelled from the spec's tenant attribute "optional per-tenant
password" carried by the hello. -/
structure ClientConn where
  id : String
  subDomain : String
  clientVersion : String
  streams : List (String × StreamEntry)
  sendLen : Nat
  sendCap : Nat
  doneClosed : Bool
  password : String
deriving DecidableEq

structure ConnectionManager where
  conns : List ClientConn
  clients : List (String × Nat)
  subdomains : List (String × String)
  maxConnection : Nat
deriving DecidableEq

def emptyCM (maxConn : Nat) : ConnectionManager := ⟨[], [], [], maxConn⟩

inductive AddClientErr where
  | limitReached   -- "maximum connections reached"
  | subdomainInUse -- "subdomain already in use"
deriving DecidableEq

/-- The construction-and-insertion tail of `AddClient` (lines 73–92). -/
def addClientCore (cm : ConnectionManager) (clientID subDomain clientVersion pw : String) :
    ConnectionManager × Nat :=
  let idx := cm.conns.length
  let conn : ClientConn :=
    { id := clientID, subDomain := subDomain, clientVersion := clientVersion,
      streams := [], sendLen := 0, sendCap := sendQueueCapacity,
      doneClosed := false, password := pw }
  ({ cm with
      conns := cm.conns ++ [conn],
      clients := ainsert cm.clients clientID idx,
      subdomains := ainsert cm.subdomains subDomain clientID }, idx)

/-- `ConnectionManager.AddClient`: limit check, occupied-subdomain check
(tolerating the same client id), then insertion. -/
def AddClient (cm : ConnectionManager) (clientID subDomain clientVersion pw : String) :
    Except AddClientErr (ConnectionManager × Nat) :=
  if cm.maxConnection ≤ cm.clients.length then .error .limitReached
  else
    match alookup cm.subdomains subDomain with
    | some existingID =>
      if existingID ≠ clientID then .error .subdomainInUse
      else .ok (addClientCore cm clientID subDomain clientVersion pw)
    | none => .ok (addClientCore cm clientID subDomain clientVersion pw)

/-- `ConnectionManager.RemoveClient`: drops the subdomain mapping, closes
every stream's `Done` and the client's `Done`, drops the client mapping.
(The source also empties the stream table; we keep the revoked entries on
the dead connection object so revocation stays observable.) -/
def RemoveClient (cm : ConnectionManager) (clientID : String) : ConnectionManager :=
  match alookup cm.clients clientID with
  | none => cm
  | some i =>
    match cm.conns[i]? with
    | none => cm
    | some conn =>
      let conn' := { conn with
        streams := conn.streams.map (fun p => (p.1, { p.2 with doneClosed := true })),
        doneClosed := true }
      { cm with
        subdomains := aerase cm.subdomains conn.subDomain,
        conns := cm.conns.set i conn',
        clients := aerase cm.clients clientID }

/-- `ConnectionManager.GetClientBySubDomain`. -/
def GetClientBySubDomain (cm : ConnectionManager) (subDomain : String) :
    Option (Nat × ClientConn) :=
  match alookup cm.subdomains subDomain with
  | none => none
  | some clientID =>
    match alookup cm.clients clientID with
    | none => none
    | some i => (cm.conns[i]?).map (fun c => (i, c))

/-- `ConnectionManager.IsSubDomainAvailable`. -/
def IsSubDomainAvailable (cm : ConnectionManager) (subDomain : String) : Bool :=
  (alookup cm.subdomains subDomain).isNone

/-- `ClientConnection.AddStream`, addressed by arena index. -/
def AddStream (cm : ConnectionManager) (i : Nat) (streamID protocol remoteAddr : String) :
    ConnectionManager :=
  match cm.conns[i]? with
  | none => cm
  | some conn =>
    let conn' := { conn with
      streams := ainsert conn.streams streamID ⟨protocol, remoteAddr, 0, false⟩ }
    { cm with conns := cm.conns.set i conn' }

/-- `ClientConnection.RemoveStream`: idempotent; closes the stream's `Done`
and deletes the entry. -/
def RemoveStream (cm : ConnectionManager) (i : Nat) (streamID : String) :
    ConnectionManager :=
  match cm.conns[i]? with
  | none => cm
  | some conn =>
    match alookup conn.streams streamID with
    | none => cm
    | some _ =>
      let conn' := { conn with streams := aerase conn.streams streamID }
      { cm with conns := cm.conns.set i conn' }

inductive SendRes where
  | accepted            -- `cc.Send <- data` fired, returns nil
  | connectionClosedErr -- "client connection closed"
  | sendBufferFullErr   -- "send buffer full"
deriving DecidableEq

/-- `ClientConnection.SendMessage` (lines 241–248): the three-way `select`
over a buffered send, a receive on the closed-able `Done`, and `default`.
Per Go semantics, when several cases can proceed one is chosen uniformly at
random; `pick` resolves that choice (it matters only when `Done` is closed
and the queue has a free slot).  Encoding is assumed to succeed (messages
built by `NewMessage` are always encodable). -/
def SendMessage (queueLen : Nat) (doneClosed : Bool) (pick : Bool) : SendRes × Nat :=
  let canSend := queueLen < sendQueueCapacity
  if canSend ∧ doneClosed then
    if pick then (.accepted, queueLen + 1) else (.connectionClosedErr, queueLen)
  else if canSend then (.accepted, queueLen + 1)
  else if doneClosed then (.connectionClosedErr, queueLen)
  else (.sendBufferFullErr, queueLen)

/-! ## Control server hello handling (internal/server/proxy.go,
`ControlServer.authenticate` and `HandleConnection`) -/

inductive ClientType where
  | auth
  | anonymous
deriving DecidableEq

structure ClientHello where
  id : String
  subDomain : Option String
  clientType : ClientType
  clientVersion : String
  secretKey : Option String   -- `SecretKey.Key`
  password : Option String
deriving DecidableEq

inductive ServerHelloType where
  | success
  | subDomainInUse
  | invalidSubDomain
  | authFailed
  | error
deriving DecidableEq

structure ServerHello where
  type : ServerHelloType
  subDomain : String := ""
  hostname : String := ""
  clientId : String := ""
  errorMsg : String := ""
deriving DecidableEq

def NewErrorHello (t : ServerHelloType) (msg : String) : ServerHello :=
  { type := t, errorMsg := msg }

def NewSuccessHello (sub host cid : String) : ServerHello :=
  { type := .success, subDomain := sub, hostname := host, clientId := cid }

structure ServerCfg where
  allowAnonymous : Bool
  subDomainSuffix : String
deriving DecidableEq

inductive AuthOutcome where
  | fail (hello : ServerHello)
  | pass (hello : ServerHello) (clientID subDomain : String)
deriving DecidableEq

/-- `GenerateRandomSubDomain` applied to an explicit list of the six bytes
read from `crypto/rand`. -/
def GenerateRandomSubDomainBytes (rnd : List Nat) : String :=
  String.mk (GenerateRandomSubDomain (rnd.getD 0 0) (rnd.getD 1 0) (rnd.getD 2 0)
    (rnd.getD 3 0) (rnd.getD 4 0) (rnd.getD 5 0))

/-- The subdomain selection-and-availability block that
`ControlServer.authenticate` repeats in its auth and anonymous branches:
validate a requested subdomain (or generate one from `rnd`), then require
it unoccupied in the local connection manager ("in-memory only"). -/
def chooseSubDomain (cfg : ServerCfg) (cm : ConnectionManager) (hello : ClientHello)
    (rnd : List Nat) (clientID : String) : AuthOutcome :=
  match hello.subDomain with
  | some s =>
    match ValidateSubDomain s with
    | some _ => .fail (NewErrorHello .invalidSubDomain "invalid subdomain")
    | none =>
      if ¬ IsSubDomainAvailable cm s then
        .fail (NewErrorHello .subDomainInUse "Subdomain is already in use")
      else .pass (NewSuccessHello s (s ++ "." ++ cfg.subDomainSuffix) clientID) clientID s
  | none =>
    let s := GenerateRandomSubDomainBytes rnd
    if ¬ IsSubDomainAvailable cm s then
      .fail (NewErrorHello .subDomainInUse "Subdomain is already in use")
    else .pass (NewSuccessHello s (s ++ "." ++ cfg.subDomainSuffix) clientID) clientID s

/-- `ControlServer.authenticate` (proxy.go 547–611). -/
def authenticate (cfg : ServerCfg) (cm : ConnectionManager) (hello : ClientHello)
    (rnd : List Nat) : AuthOutcome :=
  match hello.clientType with
  | .auth =>
    match hello.secretKey with
    | none => .fail (NewErrorHello .authFailed "Secret key required")
    | some key => chooseSubDomain cfg cm hello rnd (ClientIDFromKey key)
  | .anonymous =>
    if ¬ cfg.allowAnonymous then
      .fail (NewErrorHello .authFailed "Anonymous clients not allowed")
    else chooseSubDomain cfg cm hello rnd hello.id

/-- The hello phase of `ControlServer.HandleConnection`: authenticate, then
`AddClient`; an authentication or add failure replies with the error hello
and leaves the manager unchanged. -/
def processHello (cfg : ServerCfg) (cm : ConnectionManager) (hello : ClientHello)
    (rnd : List Nat) : ConnectionManager × ServerHello :=
  match authenticate cfg cm hello rnd with
  | .fail h => (cm, h)
  | .pass h clientID subDomain =>
    match AddClient cm clientID subDomain hello.clientVersion (hello.password.getD "") with
    | .error .limitReached => (cm, NewErrorHello .error "maximum connections reached")
    | .error .subdomainInUse => (cm, NewErrorHello .error "subdomain already in use")
    | .ok (cm', _) => (cm', h)

/-! ## Cluster of servers

Each server owns its connection manager; `ControlServer.authenticate`
consults only the local one. -/

def clusterHello (cl : List ConnectionManager) (k : Nat) (cfg : ServerCfg)
    (hello : ClientHello) (rnd : List Nat) : List ConnectionManager × ServerHello :=
  match cl[k]? with
  | none => (cl, NewErrorHello .error "no such server")
  | some cm =>
    let r := processHello cfg cm hello rnd
    (cl.set k r.1, r.2)

/-- Number of live control connections a single manager holds for a
subdomain. -/
def liveConnsFor (cm : ConnectionManager) (s : String) : Nat :=
  (cm.clients.filter (fun p =>
    match cm.conns[p.2]? with
    | some c => c.subDomain == s
    | none => false)).length

/-- Number of live control connections for a subdomain across a cluster. -/
def clusterLiveConns (cl : List ConnectionManager) (s : String) : Nat :=
  (cl.map (liveConnsFor · s)).sum

/-- Reachable manager states: hellos, disconnects, stream churn. -/
inductive MgrOp where
  | helloOp (cfg : ServerCfg) (h : ClientHello) (rnd : List Nat)
  | dropOp (clientID : String)
  | addStreamOp (i : Nat) (streamID protocol remoteAddr : String)
  | removeStreamOp (i : Nat) (streamID : String)

def runMgrOp (cm : ConnectionManager) : MgrOp → ConnectionManager
  | .helloOp cfg h rnd => (processHello cfg cm h rnd).1
  | .dropOp cid => RemoveClient cm cid
  | .addStreamOp i sid p r => AddStream cm i sid p r
  | .removeStreamOp i sid => RemoveStream cm i sid

def runMgrOps (cm : ConnectionManager) (ops : List MgrOp) : ConnectionManager :=
  ops.foldl runMgrOp cm

/-! ## Registry (internal/registry)

Time is an explicit `Nat` of milliseconds.  `TunnelInfo.createdAt = 0`
models Go's zero `time.Time`. -/

structure TunnelInfo where
  subdomain : String
  serverID : String
  serverHost : String
  clientID : String
  createdAt : Nat
  lastSeenAt : Nat
  proxyPort : Nat
  controlPort : Nat
deriving DecidableEq

def tunnelTTLms : Nat := 30000       -- tunnelTTL = 30 * time.Second
def defaultCacheTTLms : Nat := 2000  -- defaultCacheTTL = 2 * time.Second

inductive GetTunnelRes where
  | ok (info : TunnelInfo)
  | notFound   -- "tunnel not found: %s"
  | expired    -- "tunnel expired: %s" (in-memory variant)
deriving DecidableEq

/-- The record mutation both `RegisterTunnel` variants perform on the
incoming record: stamp this server's id, refresh `LastSeenAt`, default a
zero `CreatedAt`. -/
def registerStamp (serverID : String) (now : Nat) (info : TunnelInfo) : TunnelInfo :=
  { info with
    serverID := serverID,
    lastSeenAt := now,
    createdAt := if info.createdAt = 0 then now else info.createdAt }

/-- `InMemoryRegistry` tunnel side (metrics counters omitted). -/
structure InMemState where
  serverID : String
  tunnels : List (String × TunnelInfo)
deriving DecidableEq

/-- `InMemoryRegistry.RegisterTunnel`. -/
def InMemRegisterTunnel (now : Nat) (st : InMemState) (info : TunnelInfo) : InMemState :=
  let info' := registerStamp st.serverID now info
  { st with tunnels := ainsert st.tunnels info'.subdomain info' }

/-- `InMemoryRegistry.GetTunnel`: miss, or expiry check
`time.Since(tunnel.LastSeenAt) > tunnelTTL`. -/
def InMemGetTunnel (now : Nat) (st : InMemState) (subdomain : String) : GetTunnelRes :=
  match alookup st.tunnels subdomain with
  | none => .notFound
  | some t => if tunnelTTLms < now - t.lastSeenAt then .expired else .ok t

/-- `InMemoryRegistry.UnregisterTunnel`. -/
def InMemUnregisterTunnel (st : InMemState) (subdomain : String) : InMemState :=
  { st with tunnels := aerase st.tunnels subdomain }

/-- `DistributedRegistry`: the shared Redis keyspace (`tunnel:{sub}`) plus
the local lookup cache `map[string]*cacheEntry`.  Every write of a tunnel
key (`RegisterTunnel`, and `RefreshTunnel` via it) stores a record whose
`lastSeenAt` equals the write time and re-arms the key TTL (`tunnelTTL`),
so a stored key is live exactly while `now < lastSeenAt + tunnelTTL`. -/
structure DistState where
  serverID : String
  store : List (String × TunnelInfo)
  cache : List (String × (TunnelInfo × Nat))  -- cacheEntry: (tunnel, expiresAt)
deriving DecidableEq

def storeLive (now : Nat) (t : TunnelInfo) : Bool :=
  now < t.lastSeenAt + tunnelTTLms

/-- `DistributedRegistry.RegisterTunnel`: stamp, `SET key data EX tunnelTTL`,
invalidate the local cache (the pub-sub `register:{sub}` message tells the
peers to do the same). -/
def DistRegisterTunnel (now : Nat) (st : DistState) (info : TunnelInfo) : DistState :=
  let info' := registerStamp st.serverID now info
  { st with
    store := ainsert st.store info'.subdomain info',
    cache := aerase st.cache info'.subdomain }

/-- `DistributedRegistry.getCached`: an entry is served unless
`time.Now().After(entry.expiresAt)`. -/
def getCached (now : Nat) (st : DistState) (subdomain : String) : Option TunnelInfo :=
  match alookup st.cache subdomain with
  | none => none
  | some (t, expiresAt) => if expiresAt < now then none else some t

/-- `DistributedRegistry.GetTunnel`: local cache first; on a miss, fetch
from Redis and cache the result for `defaultCacheTTL`. -/
def DistGetTunnel (now : Nat) (st : DistState) (subdomain : String) :
    GetTunnelRes × DistState :=
  match getCached now st subdomain with
  | some t => (.ok t, st)
  | none =>
    match alookup st.store subdomain with
    | none => (.notFound, st)
    | some t =>
      if storeLive now t then
        (.ok t, { st with cache := ainsert st.cache subdomain (t, now + defaultCacheTTLms) })
      else (.notFound, st)

/-- `DistributedRegistry.UnregisterTunnel`: `DEL`, invalidate cache,
publish `unregister:{sub}`. -/
def DistUnregisterTunnel (st : DistState) (subdomain : String) : DistState :=
  { st with store := aerase st.store subdomain, cache := aerase st.cache subdomain }

/-! ## Peer proxy decision (internal/proxy/server_proxy.go) -/

inductive ShouldProxyRes where
  | registryErr                 -- some GetTunnel call failed
  | noProxy                     -- tunnel is local: don't proxy
  | proxyTo (info : TunnelInfo) -- tunnel owned by another server
deriving DecidableEq

/-- `ServerProxy.ShouldProxy`: `GetTunnel`, then `IsLocalTunnel` (which
performs its own `GetTunnel`), compare the owner id with this server's. -/
def ShouldProxy (now : Nat) (st : DistState) (subdomain : String) :
    ShouldProxyRes × DistState :=
  let r1 := DistGetTunnel now st subdomain
  match r1.1 with
  | .ok info =>
    let r2 := DistGetTunnel now r1.2 subdomain
    match r2.1 with
    | .ok info2 =>
      if info2.serverID = st.serverID then (.noProxy, r2.2)
      else (.proxyTo info, r2.2)
    | _ => (.registryErr, r2.2)
  | _ => (.registryErr, r1.2)

/-! ## Public catch-all handler (cmd server main, `proxyApp.All("/*", ...)`) -/

/-- `extractSubDomain`: match the Host against the domain template around
the `\x7b\x7b .subdomain \x7d\x7d` placeholder.  (Templates and hosts are
ASCII, so Go's byte indices coincide with character indices.) -/
def goIndexAux (needle : List Char) : List Char → Nat → Option Nat
  | [], acc => if needle = [] then some acc else none
  | l@(_ :: rest), acc =>
    if needle.isPrefixOf l then some acc else goIndexAux needle rest (acc + 1)

def goIndex (hay needle : List Char) : Option Nat := goIndexAux needle hay 0

def subdomainPlaceholder : List Char := "\x7b\x7b .subdomain \x7d\x7d".data

def extractSubDomain (host domainTemplate : String) : String :=
  match goIndex domainTemplate.data subdomainPlaceholder with
  | none => ""
  | some idx =>
    let pre := domainTemplate.data.take idx
    let suf := domainTemplate.data.drop (idx + subdomainPlaceholder.length)
    if ¬ (pre.isPrefixOf host.data) then ""
    else if ¬ (suf.isSuffixOf host.data) then ""
    else String.mk ((host.data.take (host.data.length - suf.length)).drop pre.length)

/-- A public HTTP request as the catch-all handler observes it.
`hasProxyMarker` records whether the request carries the
`X-TunGo-Proxy: true` header set by a forwarding peer; `headerPassword` is
`c.Get("x-tungo-password")` (`""` when absent); `cookies` backs
`c.Cookies(name)` (absent → `""`). -/
structure PublicRequest where
  host : String
  hasProxyMarker : Bool
  headerPassword : String
  cookies : List (String × String)
deriving DecidableEq

structure CookieSpec where
  name : String
  value : String
  path : String
  maxAge : Nat
  httpOnly : Bool
  secure : Bool
  sameSite : String
deriving DecidableEq

inductive RouteAction where
  | notFound404                  -- 404 "Tunnel Not Found"
  | forwarded (info : TunnelInfo)  -- ServerProxy.ProxyToServer invoked
  | notActive503                 -- 503 "Tunnel Not Active"
  | authOkJSON (cookie : CookieSpec)  -- 200 JSON ack, Set-Cookie
  | wrongPassword401             -- 401 JSON error
  | passwordPrompt401            -- 401 password-prompt HTML
  | handled (clientIdx : Nat)    -- proxyHandler.HandleRequest(c, client)
deriving DecidableEq

/-- The `proxyApp.All("/*", ...)` catch-all: subdomain extraction, peer
forwarding, local lookup, tenant-password gate, tunnel handling.  The
request's proxy marker is carried in `req` but — mirroring the source —
never consulted. -/
def catchAllHandler (cfgDomain : String) (now : Nat) (reg : DistState)
    (cm : ConnectionManager) (req : PublicRequest) : RouteAction × DistState :=
  let sub := extractSubDomain req.host cfgDomain
  if sub = "" then (.notFound404, reg)
  else
    let sp := ShouldProxy now reg sub
    match sp.1 with
    | .proxyTo info => (.forwarded info, sp.2)
    | _ =>
      match GetClientBySubDomain cm sub with
      | none => (.notActive503, sp.2)
      | some (i, client) =>
        if client.password ≠ "" then
          let provided := req.headerPassword
          let authenticated :=
            if provided = "" then
              let authCookie := (alookup req.cookies ("tungo-auth-" ++ sub)).getD ""
              authCookie != "" && authCookie == hexSha256 client.password
            else false
          if provided ≠ "" then
            if provided = client.password then
              (.authOkJSON
                { name := "tungo-auth-" ++ sub, value := hexSha256 client.password,
                  path := "/", maxAge := 86400, httpOnly := true, secure := false,
                  sameSite := "Lax" }, sp.2)
            else (.wrongPassword401, sp.2)
          else if ¬ authenticated then (.passwordPrompt401, sp.2)
          else (.handled i, sp.2)
        else (.handled i, sp.2)

/-! ## Response-collection loop (internal/server/proxy.go,
`ProxyHandler.HandleRequest` lines 114–163)

The `for { select { ... } }` loop is embedded as a function of the sequence
of events the select observed: a chunk received on `stream.DataChan`, the
idle timer (`noDataTimeout`, initially 5 s, re-armed to 200 ms after every
chunk), the stream's `Done` closing, or the hard 30 s `timeout` firing. -/

def hardTimeoutSecs : Nat := 30
def initialIdleSecs : Nat := 5
def idleResetMillis : Nat := 200

inductive LoopEvent where
  | chunk (data : List Nat)
  | idleTimeout
  | streamDone
  | hardTimeout
deriving DecidableEq

inductive LoopOutcome where
  | respond (buf : List Nat)  -- ph.sendHTTPResponse(c, responseBuffer, ...)
  | noResponse502             -- 502 "No Response Received"
  | connClosed502             -- 502 "Connection Closed"
  | timeout504                -- 504 "Request Timeout"
  | blocked                   -- trace ended with the select still waiting
deriving DecidableEq

def collectResponse : List LoopEvent → List Nat → LoopOutcome
  | [], _ => .blocked
  | .chunk d :: rest, buf => collectResponse rest (buf ++ d)
  | .idleTimeout :: _, buf => if 0 < buf.length then .respond buf else .noResponse502
  | .streamDone :: _, buf => if 0 < buf.length then .respond buf else .connClosed502
  | .hardTimeout :: _, _ => .timeout504

/-- First non-chunk event of a trace. -/
def firstTerminator : List LoopEvent → Option LoopEvent
  | [] => none
  | .chunk _ :: rest => firstTerminator rest
  | e :: _ => some e

/-- Bytes delivered before the first non-chunk event. -/
def chunksBefore : List LoopEvent → List Nat
  | [] => []
  | .chunk d :: rest => d ++ chunksBefore rest
  | _ :: _ => []

/-- HTTP status of an outcome (`respond` derives its status from parsing
the buffer and is not a fixed code). -/
def outcomeStatus : LoopOutcome → Option Nat
  | .noResponse502 => some 502
  | .connClosed502 => some 502
  | .timeout504 => some 504
  | _ => none

/-- Closed form of the collection loop: its result as a function of the
first non-chunk event and the bytes accumulated up to it. -/
def collectSpec (t : Option LoopEvent) (bytes : List Nat) : LoopOutcome :=
  match t with
  | none => .blocked
  | some .hardTimeout => .timeout504
  | some .idleTimeout => if 0 < bytes.length then .respond bytes else .noResponse502
  | some .streamDone => if 0 < bytes.length then .respond bytes else .connClosed502
  | some (.chunk _) => .blocked

/-! ## Statement vocabulary and invariants -/

def isProxyTo : ShouldProxyRes → Bool
  | .proxyTo _ => true
  | _ => false

def isHandled : RouteAction → Bool
  | .handled _ => true
  | _ => false

/-- Closed form of the catch-all handler's tenant-password gate for a
locally resolved tenant (the `client.Password != ""` section). -/
def gateSpec (sub : String) (client : ClientConn) (req : PublicRequest) (i : Nat) :
    RouteAction :=
  if client.password ≠ "" then
    if req.headerPassword ≠ "" then
      if req.headerPassword = client.password then
        .authOkJSON
          { name := "tungo-auth-" ++ sub, value := hexSha256 client.password,
            path := "/", maxAge := 86400, httpOnly := true, secure := false,
            sameSite := "Lax" }
      else .wrongPassword401
    else
      if ((alookup req.cookies ("tungo-auth-" ++ sub)).getD "" != "" &&
          (alookup req.cookies ("tungo-auth-" ++ sub)).getD "" ==
            hexSha256 client.password) then
        .handled i
      else .passwordPrompt401
  else .handled i

/-- Refresh only `last_seen` of a stored tenant record (in-memory). -/
def setLastSeenInMem (st : InMemState) (subdomain : String) (t : Nat) : InMemState :=
  { st with tunnels := aupdate st.tunnels subdomain (fun r => { r with lastSeenAt := t }) }

/-- Refresh only `last_seen` of a stored tenant record (distributed). -/
def setLastSeenDist (st : DistState) (subdomain : String) (t : Nat) : DistState :=
  { st with store := aupdate st.store subdomain (fun r => { r with lastSeenAt := t }) }

/-- Well-formedness of a connection manager: every managed client points at
a connection object whose subdomain maps back to that client. -/
def SubInv (cm : ConnectionManager) : Prop :=
  ∀ c i, alookup cm.clients c = some i →
    ∃ o, cm.conns[i]? = some o ∧ alookup cm.subdomains o.subDomain = some c

/-- At most one live control connection per subdomain on one server. -/
def PerSubUnique (cm : ConnectionManager) : Prop :=
  ∀ s c1 c2 i1 i2 o1 o2,
    alookup cm.clients c1 = some i1 → alookup cm.clients c2 = some i2 →
    cm.conns[i1]? = some o1 → cm.conns[i2]? = some o2 →
    o1.subDomain = s → o2.subDomain = s → c1 = c2

/-! ## Concrete fixtures used by counterexamples and witnesses -/

def domFix : String := "\x7b\x7b .subdomain \x7d\x7d.localhost"

def cfgFix : ServerCfg := ⟨true, "localhost"⟩

def helloAFix : ClientHello := ⟨"a", some "demo", .anonymous, "", none, none⟩

def helloBFix : ClientHello := ⟨"b", some "demo", .anonymous, "", none, none⟩

def helloInvalidFix : ClientHello := ⟨"x", some "-bad", .anonymous, "", none, none⟩

/-- Cluster of two fresh servers after both accepted subdomain `demo`. -/
def clusterStep1 : List ConnectionManager × ServerHello :=
  clusterHello [emptyCM 100, emptyCM 100] 0 cfgFix helloAFix []

def clusterStep2 : List ConnectionManager × ServerHello :=
  clusterHello clusterStep1.1 1 cfgFix helloBFix []

/-- A manager already holding subdomain `demo` for client `a`. -/
def cmOccFix : ConnectionManager := (addClientCore (emptyCM 10) "a" "demo" "" "").1

/-- Tenant record fixture (non-zero `createdAt`). -/
def recFix : TunnelInfo := ⟨"demo", "s1", "h1", "c1", 5, 0, 8080, 5000⟩

/-- Distributed state after `RegisterTunnel` at t=0 and a `GetTunnel` at
t=29000 (which caches the record until t=31000). -/
def distC3St2 : DistState :=
  (DistGetTunnel 29000 (DistRegisterTunnel 0 ⟨"s1", [], []⟩ recFix) "demo").2

/-- The record as stored by that `RegisterTunnel` call. -/
def recC3Stored : TunnelInfo := ⟨"demo", "s1", "h1", "c1", 5, 0, 8080, 5000⟩

/-- In-memory registry holding a fresh `demo` record. -/
def memFix : InMemState := InMemRegisterTunnel 1000 ⟨"s1", []⟩ recFix

/-- Registry view of server `s2`: `demo` is owned by `s1`. -/
def regC2Fix : DistState :=
  ⟨"s2", [("demo", { recFix with serverID := "s1", lastSeenAt := 500 })], []⟩

def recC2Stored : TunnelInfo := ⟨"demo", "s1", "h1", "c1", 5, 500, 8080, 5000⟩

/-- A forwarded request: it already carries `X-TunGo-Proxy: true`. -/
def reqMarkerFix : PublicRequest := ⟨"demo.localhost", true, "", []⟩

/-- Manager holding password-protected tenant `secure`. -/
def cmPwFix : ConnectionManager := (addClientCore (emptyCM 10) "c1" "secure" "" "letmein").1

def connPwFix : ClientConn :=
  ⟨"c1", "secure", "", [], 0, sendQueueCapacity, false, "letmein"⟩

def regEmptyFix : DistState := ⟨"s1", [], []⟩

/-- Wrong header password together with a valid auth cookie. -/
def reqWrongHeaderFix : PublicRequest :=
  ⟨"secure.localhost", false, "wrong", [("tungo-auth-secure", hexSha256 "letmein")]⟩

/-- Correct header password. -/
def reqHeaderFix : PublicRequest := ⟨"secure.localhost", false, "letmein", []⟩

/-- Valid auth cookie, no header. -/
def reqCookieFix : PublicRequest :=
  ⟨"secure.localhost", false, "", [("tungo-auth-secure", hexSha256 "letmein")]⟩

/-- Neither credential. -/
def reqNoCredFix : PublicRequest := ⟨"secure.localhost", false, "", []⟩

def cookieFix : CookieSpec :=
  { name := "tungo-auth-secure", value := hexSha256 "letmein", path := "/",
    maxAge := 86400, httpOnly := true, secure := false, sameSite := "Lax" }

/-! ## Association-list lemmas -/

theorem alookup_ainsert_self {α : Type} (l : List (String × α)) (k : String) (v : α) :
    alookup (ainsert l k v) k = some v := by
  simp [ainsert, alookup]

theorem alookup_aerase_ne {α : Type} (l : List (String × α)) (k k' : String)
    (h : k' ≠ k) : alookup (aerase l k) k' = alookup l k' := by
  induction l with
  | nil => rfl
  | cons p rest ih =>
    rcases p with ⟨a, b⟩
    by_cases ha : a = k
    · subst ha
      have hne : ¬ (a = k') := fun e => h e.symm
      simp [aerase, alookup, hne, ih]
    · by_cases hak : a = k'
      · subst hak
        simp [aerase, alookup, ha]
      · simp [aerase, alookup, ha, hak, ih]

theorem alookup_ainsert_ne {α : Type} (l : List (String × α)) (k k' : String) (v : α)
    (h : k' ≠ k) : alookup (ainsert l k v) k' = alookup l k' := by
  have hne : ¬ (k = k') := fun e => h e.symm
  simp [ainsert, alookup, hne, alookup_aerase_ne l k k' h]

theorem aerase_cons_self {α : Type} (l : List (String × α)) (k : String) (v : α) :
    aerase ((k, v) :: l) k = aerase l k := by
  simp [aerase]

theorem mem_aerase {α : Type} (l : List (String × α)) (k : String) (p : String × α)
    (hp : p ∈ aerase l k) : p ∈ l ∧ p.1 ≠ k := by
  induction l with
  | nil => cases hp
  | cons q rest ih =>
    rcases q with ⟨a, b⟩
    by_cases ha : a = k
    · simp only [aerase, if_pos ha] at hp
      rcases ih hp with ⟨h1, h2⟩
      exact ⟨List.mem_cons_of_mem _ h1, h2⟩
    · simp only [aerase, if_neg ha] at hp
      rcases List.mem_cons.mp hp with h1 | h1
      · subst h1; exact ⟨List.mem_cons_self _ _, ha⟩
      · rcases ih h1 with ⟨h2, h3⟩
        exact ⟨List.mem_cons_of_mem _ h2, h3⟩

theorem aerase_aerase {α : Type} (l : List (String × α)) (k : String) :
    aerase (aerase l k) k = aerase l k := by
  induction l with
  | nil => rfl
  | cons p rest ih =>
    rcases p with ⟨a, b⟩
    by_cases ha : a = k <;> simp [aerase, ha, ih]

theorem ainsert_ainsert {α : Type} (l : List (String × α)) (k : String) (v v' : α) :
    ainsert (ainsert l k v) k v' = ainsert l k v' := by
  simp [ainsert, aerase, aerase_aerase]

theorem aupdate_no_key {α : Type} (l : List (String × α)) (k : String) (f : α → α)
    (h : ∀ p ∈ l, p.1 ≠ k) : aupdate l k f = l := by
  induction l with
  | nil => rfl
  | cons p rest ih =>
    have h1 : ¬ (p.1 = k) := h p (List.mem_cons_self p rest)
    have h2 : ∀ q ∈ rest, q.1 ≠ k := fun q hq => h q (List.mem_cons_of_mem p hq)
    simp only [aupdate, List.map_cons, if_neg h1]
    have ih' := ih h2
    simp only [aupdate] at ih'
    rw [ih']

theorem aupdate_ainsert_self {α : Type} (l : List (String × α)) (k : String) (v : α)
    (f : α → α) : aupdate (ainsert l k v) k f = ainsert l k (f v) := by
  have herase : ∀ p ∈ aerase l k, p.1 ≠ k := fun p hp => (mem_aerase l k p hp).2
  have h2 : List.map (fun p => if p.1 = k then (p.1, f p.2) else p) (aerase l k) =
      aerase l k := aupdate_no_key (aerase l k) k f herase
  simp [ainsert, aupdate, h2]

/-! ## Response-collection loop lemmas -/

theorem collect_eq (evs : List LoopEvent) :
    ∀ buf, collectResponse evs buf = collectSpec (firstTerminator evs) (buf ++ chunksBefore evs) := by
  induction evs with
  | nil => intro buf; simp [collectResponse, firstTerminator, chunksBefore, collectSpec]
  | cons e rest ih =>
    intro buf
    cases e with
    | chunk d =>
      simp [collectResponse, firstTerminator, chunksBefore, ih (buf ++ d)]
    | idleTimeout => simp [collectResponse, firstTerminator, chunksBefore, collectSpec]
    | streamDone => simp [collectResponse, firstTerminator, chunksBefore, collectSpec]
    | hardTimeout => simp [collectResponse, firstTerminator, chunksBefore, collectSpec]

/-- Claim C4: for every locally served public request, the response-collection
loop of `ProxyHandler.HandleRequest` returns 504 exactly when the 30-second
hard deadline fires; it returns 502 when the idle timer fires or the stream
ends with an empty buffer; and with a non-empty buffer at idle expiry or
stream end it parses the buffer and responds from it. -/
theorem C4_response_loop (evs : List LoopEvent) :
    (outcomeStatus (collectResponse evs []) = some 504 ↔
      firstTerminator evs = some .hardTimeout) ∧
    (outcomeStatus (collectResponse evs []) = some 502 ↔
      ((firstTerminator evs = some .idleTimeout ∨ firstTerminator evs = some .streamDone) ∧
        chunksBefore evs = [])) ∧
    ((firstTerminator evs = some .idleTimeout ∨ firstTerminator evs = some .streamDone) →
      chunksBefore evs ≠ [] → collectResponse evs [] = .respond (chunksBefore evs)) := by
  have h := collect_eq evs []
  simp only [List.nil_append] at h
  rw [h]
  rcases hft : firstTerminator evs with _ | e
  · simp [collectSpec, outcomeStatus]
  · cases e with
    | chunk d => simp [collectSpec, outcomeStatus]
    | idleTimeout =>
      rcases hcb : chunksBefore evs with _ | ⟨x, xs⟩ <;>
        simp [collectSpec, outcomeStatus]
    | streamDone =>
      rcases hcb : chunksBefore evs with _ | ⟨x, xs⟩ <;>
        simp [collectSpec, outcomeStatus]
    | hardTimeout => simp [collectSpec, outcomeStatus]

/-- Witness for C4: a chunk followed by the idle timer yields a parsed
response from the accumulated buffer. -/
theorem C4_response_loop_witness :
    collectResponse [LoopEvent.chunk [104, 105], LoopEvent.idleTimeout] [] =
      LoopOutcome.respond [104, 105] :=
  (C4_response_loop [LoopEvent.chunk [104, 105], LoopEvent.idleTimeout]).2.2
    (by decide) (by decide)

/-! ## C9: SendMessage -/

/-- Counterexample for claim C9: with liveness revoked (`Done` closed) and a
free queue slot, Go's `select` may take the send case, so `SendMessage`
can enqueue and return nil instead of the connection-closed error the claim
requires "whenever" liveness is revoked. -/
theorem C9_counterexample :
    SendMessage 0 true true = (SendRes.accepted, 1) ∧
    SendRes.accepted ≠ SendRes.connectionClosedErr := by
  decide

/-- Claim C9 (amended): `SendMessage` is non-blocking with outcomes: enqueue
when a slot is free and liveness intact; send-buffer-full when the queue is
full and liveness intact; connection-closed when liveness is revoked and the
queue is full; when liveness is revoked but a slot is free the select picks
either enqueue or connection-closed; the queue never exceeds 512 slots. -/
theorem C9_send_outcomes (q : Nat) (pick : Bool) :
    (q < sendQueueCapacity → SendMessage q false pick = (.accepted, q + 1)) ∧
    (sendQueueCapacity ≤ q → SendMessage q false pick = (.sendBufferFullErr, q)) ∧
    (sendQueueCapacity ≤ q → SendMessage q true pick = (.connectionClosedErr, q)) ∧
    (q < sendQueueCapacity →
      SendMessage q true pick =
        if pick then (.accepted, q + 1) else (.connectionClosedErr, q)) ∧
    (∀ d : Bool, q ≤ sendQueueCapacity → (SendMessage q d pick).2 ≤ sendQueueCapacity) := by
  refine ⟨?_, ?_, ?_, ?_, ?_⟩
  · intro h; simp [SendMessage, h]
  · intro h; simp [SendMessage, Nat.not_lt.mpr h]
  · intro h; simp [SendMessage, Nat.not_lt.mpr h]
  · intro h; simp [SendMessage, h]
  · intro d h
    cases d <;> simp [SendMessage] <;> split_ifs <;> simp <;> omega

/-- Witness for C9 (amended): an empty queue on a live connection accepts. -/
theorem C9_send_outcomes_witness :
    SendMessage 0 false true = (SendRes.accepted, 1) :=
  (C9_send_outcomes 0 true).1 (by decide)

/-! ## C8: random subdomain shape -/

/-- Counterexample for claim C8: six `0xFF` bytes encode to `"________"`,
whose underscores are all stripped, so the generator returns the empty
string rather than an 8-character one. -/
theorem C8_counterexample :
    GenerateRandomSubDomain 255 255 255 255 255 255 = [] ∧
    (GenerateRandomSubDomain 255 255 255 255 255 255).length ≠ 8 := by
  decide

theorem b64Group_lt (a b c : Nat) (ha : a < 256) (hb : b < 256) (hc : c < 256) :
    ∀ x ∈ b64Group a b c, x < 64 := by
  intro x hx
  simp [b64Group] at hx
  rcases hx with h | h | h | h <;> omega

theorem b64_lower_char (i : Nat) (h : i < 64) :
    goToLower (b64Char i) = '-' ∨ goToLower (b64Char i) = '_' ∨
      lowerAlnum (goToLower (b64Char i)) = true := by
  revert h
  revert i
  decide

/-- Claim C8 (amended): over all draws of the six random bytes, the
generated subdomain has at most 8 characters (exactly 8 minus the stripped
`-`/`_` characters) and every character is a lowercase letter or digit. -/
theorem C8_output_shape (b0 b1 b2 b3 b4 b5 : Nat)
    (h0 : b0 < 256) (h1 : b1 < 256) (h2 : b2 < 256)
    (h3 : b3 < 256) (h4 : b4 < 256) (h5 : b5 < 256) :
    (GenerateRandomSubDomain b0 b1 b2 b3 b4 b5).length ≤ 8 ∧
    ∀ c ∈ GenerateRandomSubDomain b0 b1 b2 b3 b4 b5, lowerAlnum c = true := by
  constructor
  · simp only [GenerateRandomSubDomain]
    split
    · simp [List.length_take]
    · omega
  · intro c hc
    simp only [GenerateRandomSubDomain] at hc
    have hc1 : c ∈ List.filter (fun x => decide (x ≠ '-'))
        (List.filter (fun x => decide (x ≠ '_'))
          (List.map goToLower (b64UrlEncode6 b0 b1 b2 b3 b4 b5))) := by
      split at hc
      · exact List.mem_of_mem_take hc
      · exact hc
    obtain ⟨hc2, hnd⟩ := List.mem_filter.mp hc1
    obtain ⟨hc3, hnu⟩ := List.mem_filter.mp hc2
    have hnd' : c ≠ '-' := by simpa using hnd
    have hnu' : c ≠ '_' := by simpa using hnu
    obtain ⟨ch, hch, rfl⟩ := List.mem_map.mp hc3
    obtain ⟨i, hi, rfl⟩ := List.mem_map.mp
      (show ch ∈ (b64Group b0 b1 b2 ++ b64Group b3 b4 b5).map b64Char from hch)
    have hi64 : i < 64 := by
      rcases List.mem_append.mp hi with h | h
      · exact b64Group_lt b0 b1 b2 h0 h1 h2 i h
      · exact b64Group_lt b3 b4 b5 h3 h4 h5 i h
    rcases b64_lower_char i hi64 with h | h | h
    · exact absurd h hnd'
    · exact absurd h hnu'
    · exact h

/-- Witness for C8 (amended): the bytes `00 01 02 03 04 05`. -/
theorem C8_output_shape_witness :
    (GenerateRandomSubDomain 0 1 2 3 4 5).length ≤ 8 ∧
    ∀ c ∈ GenerateRandomSubDomain 0 1 2 3 4 5, lowerAlnum c = true :=
  C8_output_shape 0 1 2 3 4 5 (by decide) (by decide) (by decide)
    (by decide) (by decide) (by decide)

/-! ## C7: subdomain validation -/

theorem char_toNat_45 (c : Char) (h : c.toNat = 45) : c = '-' := by
  have h2 := Char.ofNat_toNat c
  rw [h] at h2
  rw [← h2]

/-- In-bounds `getD` agrees with `getElem?`. -/
theorem getD_lt_eq (l : List Char) (j : Nat) (h : j < l.length) :
    l[j]? = some (l.getD j 'a') := by
  rcases hx : l[j]? with _ | c
  · rw [List.getElem?_eq_none_iff] at hx
    omega
  · simp [List.getD_eq_getElem?_getD, hx]

theorem subCharOk_le (c : Char) (h : subCharOk c = true) : c.toNat ≤ 122 := by
  simp [subCharOk] at h
  omega

theorem subCharOk_size (c : Char) (h : subCharOk c = true) : goUtf8Size c = 1 := by
  have := subCharOk_le c h
  simp only [goUtf8Size]
  rw [if_pos (by omega)]

theorem goStrLen_all_ascii (l : List Char) (h : ∀ c ∈ l, subCharOk c = true) :
    goStrLen l = l.length := by
  induction l with
  | nil => rfl
  | cons c rest ih =>
    have hc := subCharOk_size c (h c (List.mem_cons_self c rest))
    have hrest := ih (fun x hx => h x (List.mem_cons_of_mem c hx))
    simp [goStrLen, hc] at *
    omega

theorem validateChars_all_ok (l : List Char) :
    ∀ i n, validateChars i n l = none → ∀ c ∈ l, subCharOk c = true := by
  induction l with
  | nil => intro i n _ c hc; cases hc
  | cons c rest ih =>
    intro i n h c' hc'
    by_cases h1 : subCharOk c = true
    · by_cases h2 : (c.toNat == 45 && (i == 0 || i == n - 1)) = true
      · simp [validateChars, h1, h2] at h
      · have h' : validateChars (i + goUtf8Size c) n rest = none := by
          simpa [validateChars, h1, h2] using h
        rcases List.mem_cons.mp hc' with rfl | hmem
        · exact h1
        · exact ih _ _ h' c' hmem
    · simp [validateChars, h1] at h

theorem validateChars_ascii_iff (l : List Char) :
    ∀ i n, (∀ c ∈ l, subCharOk c = true) →
    (validateChars i n l = none ↔
      ∀ j, j < l.length → (l.getD j 'a').toNat = 45 → i + j ≠ 0 ∧ i + j ≠ n - 1) := by
  induction l with
  | nil => intro i n _; simp [validateChars]
  | cons c rest ih =>
    intro i n h
    have hc : subCharOk c = true := h c (List.mem_cons_self c rest)
    have hrest : ∀ x ∈ rest, subCharOk x = true :=
      fun x hx => h x (List.mem_cons_of_mem c hx)
    have hsize : goUtf8Size c = 1 := subCharOk_size c hc
    constructor
    · intro hval j hj h45
      by_cases h2 : (c.toNat == 45 && (i == 0 || i == n - 1)) = true
      · simp [validateChars, hc, h2] at hval
      · have hval' : validateChars (i + 1) n rest = none := by
          have := by simpa [validateChars, hc, h2] using hval
          rwa [hsize] at this
        rcases j with _ | j'
        · simp only [List.getD_cons_zero] at h45
          simp only [h45, beq_self_eq_true, Bool.true_and, Bool.or_eq_true,
            beq_iff_eq, not_or] at h2
          push_neg at h2
          omega
        · have hrec := (ih (i + 1) n hrest).mp hval' j'
            (by simpa using hj) (by simpa using h45)
          omega
    · intro hpos
      have h2 : ¬ ((c.toNat == 45 && (i == 0 || i == n - 1)) = true) := by
        intro hbad
        simp only [Bool.and_eq_true, beq_iff_eq, Bool.or_eq_true] at hbad
        rcases hbad with ⟨h45, hi⟩
        have := hpos 0 (by simp) (by simpa using h45)
        omega
      have hrec : validateChars (i + 1) n rest = none := by
        apply (ih (i + 1) n hrest).mpr
        intro j hj h45
        have := hpos (j + 1) (by simpa using hj) (by simpa using h45)
        omega
      simp [validateChars, hc, h2, hsize, hrec]

/-- Claim C7: `ValidateSubDomain` accepts exactly the strings of length
1..63 over `[a-z0-9-]` with no leading or trailing hyphen; and a hello
carrying a subdomain that fails validation is answered with the
`invalid_sub_domain` `ServerHello` variant (given the authentication
prerequisites of the enclosing branch hold). -/
theorem C7_subdomain_validation :
    (∀ s : String, ValidateSubDomain s = none ↔ SubDomainSpec s) ∧
    (∀ (cfg : ServerCfg) (cm : ConnectionManager) (hello : ClientHello)
        (rnd : List Nat) (s : String),
      hello.subDomain = some s → ValidateSubDomain s ≠ none →
      (hello.clientType = .auth → hello.secretKey.isSome) →
      (hello.clientType = .anonymous → cfg.allowAnonymous = true) →
      (processHello cfg cm hello rnd).2.type = ServerHelloType.invalidSubDomain ∧
      (processHello cfg cm hello rnd).1 = cm) := by
  constructor
  · intro s
    constructor
    · intro hv
      simp only [ValidateSubDomain] at hv
      by_cases h0 : goStrLen s.data = 0
      · simp [h0] at hv
      · by_cases h63 : 63 < goStrLen s.data
        · simp [h0, h63] at hv
        · have hval : validateChars 0 (goStrLen s.data) s.data = none := by
            simpa [h0, h63] using hv
          have hok := validateChars_all_ok s.data 0 (goStrLen s.data) hval
          have hlen := goStrLen_all_ascii s.data hok
          have hpos := (validateChars_ascii_iff s.data 0 (goStrLen s.data) hok).mp hval
          refine ⟨by omega, by omega, hok, ?_, ?_⟩
          · intro hhead
            have hne : s.data ≠ [] := by
              intro he
              rw [he] at hhead
              simp at hhead
            have h0' : s.data[0]? = some '-' := by
              rw [← List.head?_eq_getElem?]
              exact hhead
            have hlt : 0 < s.data.length := List.length_pos.mpr hne
            have hgd : s.data.getD 0 'a' = '-' := by
              have := getD_lt_eq s.data 0 hlt
              rw [h0'] at this
              exact (Option.some.injEq _ _ ▸ this).symm
            have := hpos 0 hlt (by rw [hgd]; rfl)
            omega
          · intro hlast
            have hne : s.data ≠ [] := by
              intro he
              rw [he] at hlast
              simp at hlast
            have hlt : s.data.length - 1 < s.data.length := by
              have := List.length_pos.mpr hne
              omega
            have h0' : s.data[s.data.length - 1]? = some '-' := by
              rw [← List.getLast?_eq_getElem?]
              exact hlast
            have hgd : s.data.getD (s.data.length - 1) 'a' = '-' := by
              have := getD_lt_eq s.data (s.data.length - 1) hlt
              rw [h0'] at this
              exact (Option.some.injEq _ _ ▸ this).symm
            have := hpos (s.data.length - 1) hlt (by rw [hgd]; rfl)
            omega
    · rintro ⟨h1, h63, hok, hhead, hlast⟩
      have hlen := goStrLen_all_ascii s.data hok
      simp only [ValidateSubDomain]
      rw [if_neg (by omega), if_neg (by omega)]
      apply (validateChars_ascii_iff s.data 0 (goStrLen s.data) hok).mpr
      intro j hj h45
      have hch : s.data.getD j 'a' = '-' := char_toNat_45 _ h45
      constructor
      · intro hj0
        have hj0' : j = 0 := by omega
        subst hj0'
        apply hhead
        rw [List.head?_eq_getElem?, getD_lt_eq s.data 0 hj, hch]
      · intro hjn
        have hjn' : j = s.data.length - 1 := by omega
        subst hjn'
        apply hlast
        rw [List.getLast?_eq_getElem? s.data, getD_lt_eq s.data (s.data.length - 1) hj, hch]
  · intro cfg cm hello rnd s hsub hbad hauth hanon
    rcases hval : ValidateSubDomain s with _ | e
    · exact absurd hval hbad
    · cases hct : hello.clientType with
      | auth =>
        rcases hsk : hello.secretKey with _ | key
        · have := hauth hct
          simp [hsk] at this
        · simp [processHello, authenticate, hct, hsk, chooseSubDomain, hsub, hval,
            NewErrorHello]
      | anonymous =>
        have hallow := hanon hct
        simp [processHello, authenticate, hct, hallow, chooseSubDomain, hsub, hval,
          NewErrorHello]

/-- Witness for C7: `demo` validates; a hello requesting `-bad` is answered
with `invalid_sub_domain` and the manager is unchanged. -/
theorem C7_subdomain_validation_witness :
    ValidateSubDomain "demo" = none ∧
    (processHello cfgFix (emptyCM 10) helloInvalidFix []).2.type =
      ServerHelloType.invalidSubDomain :=
  ⟨(C7_subdomain_validation.1 "demo").mpr (by decide),
   (C7_subdomain_validation.2 cfgFix (emptyCM 10) helloInvalidFix [] "-bad"
      rfl (by decide) (by intro h; cases h) (by intro _; rfl)).1⟩

/-! ## C6: RegisterTenant is an idempotent upsert -/

/-- Claim C6: `RegisterTunnel` (both variants) is an idempotent upsert keyed
by subdomain: every call stamps `server_id` with this server and
`last_seen` with now, preserves a non-zero `created_at`, and a second call
with identical fields leaves the registry in the state of a single call,
differing from the first call's state only in the refreshed `last_seen`. -/
theorem C6_register_idempotent (now now1 now2 : Nat) (st : InMemState)
    (dst : DistState) (rec : TunnelInfo) :
    (alookup (InMemRegisterTunnel now st rec).tunnels rec.subdomain =
      some (registerStamp st.serverID now rec)) ∧
    (alookup (DistRegisterTunnel now dst rec).store rec.subdomain =
      some (registerStamp dst.serverID now rec)) ∧
    ((registerStamp st.serverID now rec).serverID = st.serverID ∧
      (registerStamp st.serverID now rec).lastSeenAt = now) ∧
    (rec.createdAt ≠ 0 → (registerStamp st.serverID now rec).createdAt = rec.createdAt) ∧
    (InMemRegisterTunnel now2 (InMemRegisterTunnel now1 st rec) rec =
      InMemRegisterTunnel now2 st rec) ∧
    (DistRegisterTunnel now2 (DistRegisterTunnel now1 dst rec) rec =
      DistRegisterTunnel now2 dst rec) ∧
    (rec.createdAt ≠ 0 →
      InMemRegisterTunnel now2 (InMemRegisterTunnel now1 st rec) rec =
        setLastSeenInMem (InMemRegisterTunnel now1 st rec) rec.subdomain now2) ∧
    (rec.createdAt ≠ 0 →
      DistRegisterTunnel now2 (DistRegisterTunnel now1 dst rec) rec =
        setLastSeenDist (DistRegisterTunnel now1 dst rec) rec.subdomain now2) := by
  refine ⟨?_, ?_, ?_, ?_, ?_, ?_, ?_, ?_⟩
  · simp [InMemRegisterTunnel, registerStamp, alookup_ainsert_self]
  · simp [DistRegisterTunnel, registerStamp, alookup_ainsert_self]
  · simp [registerStamp]
  · intro h; simp [registerStamp, h]
  · simp [InMemRegisterTunnel, registerStamp, ainsert_ainsert]
  · simp [DistRegisterTunnel, registerStamp, ainsert_ainsert, aerase_aerase]
  · intro h
    simp only [InMemRegisterTunnel, setLastSeenInMem, registerStamp]
    simp only [aupdate_ainsert_self]
    simp [ainsert_ainsert, h]
  · intro h
    simp only [DistRegisterTunnel, setLastSeenDist, registerStamp]
    simp only [aupdate_ainsert_self]
    simp [ainsert_ainsert, aerase_aerase, h]

/-- Witness for C6: registering `recFix` twice (t=1000 then t=2000) equals a
single registration with the refreshed `last_seen`. -/
theorem C6_register_idempotent_witness :
    InMemRegisterTunnel 2000 (InMemRegisterTunnel 1000 ⟨"s1", []⟩ recFix) recFix =
      setLastSeenInMem (InMemRegisterTunnel 1000 ⟨"s1", []⟩ recFix) recFix.subdomain 2000 :=
  (C6_register_idempotent 0 1000 2000 ⟨"s1", []⟩ ⟨"s1", [], []⟩ recFix).2.2.2.2.2.2.1
    (by decide)

/-! ## C3: stale tenant records -/

/-- Counterexample for claim C3: in the distributed variant the local cache
serves records without a tenant-TTL check.  Register `demo` at t=0, look it
up at t=29000 (caching it until t=31000): a lookup at t=30500 — where
`now - last_seen = 30500 > 30000` — still returns the stale record from the
cache instead of NotFound/Expired. -/
theorem C3_counterexample :
    (DistGetTunnel 30500 distC3St2 "demo").1 = GetTunnelRes.ok recFix ∧
    tunnelTTLms < 30500 - recFix.lastSeenAt := by
  decide

/-- Claim C3 (amended): the in-memory `GetTunnel` never returns a record
older than the tenant TTL, and neither does the distributed `GetTunnel`
whenever the lookup does not hit a live cache entry (the Redis key TTL is
anchored at `last_seen`); only an unexpired local cache entry can serve a
stale record, for at most the 2-second cache TTL beyond expiry. -/
theorem C3_no_stale_record :
    (∀ now (st : InMemState) sub r,
      InMemGetTunnel now st sub = .ok r → ¬ (tunnelTTLms < now - r.lastSeenAt)) ∧
    (∀ now (st : DistState) sub r st',
      getCached now st sub = none →
      DistGetTunnel now st sub = (.ok r, st') →
      ¬ (tunnelTTLms < now - r.lastSeenAt)) := by
  constructor
  · intro now st sub r h
    simp only [InMemGetTunnel] at h
    rcases hx : alookup st.tunnels sub with _ | t
    · rw [hx] at h; cases h
    · rw [hx] at h
      by_cases hexp : tunnelTTLms < now - t.lastSeenAt
      · simp [hexp] at h
      · simp [hexp] at h
        subst h
        exact hexp
  · intro now st sub r st' hc h
    simp only [DistGetTunnel] at h
    rw [hc] at h
    rcases hx : alookup st.store sub with _ | t
    · rw [hx] at h; simp at h
    · rw [hx] at h
      by_cases hl : storeLive now t = true
      · simp [hl] at h
        obtain ⟨h1, h2⟩ := h
        subst h1
        simp only [storeLive, decide_eq_true_eq] at hl
        omega
      · simp [hl] at h

/-- Witness for C3 (amended): a fresh record looked up in time is within
TTL. -/
theorem C3_no_stale_record_witness :
    ¬ (tunnelTTLms < 1000 - (registerStamp "s1" 1000 recFix).lastSeenAt) :=
  C3_no_stale_record.1 1000 memFix "demo" (registerStamp "s1" 1000 recFix) (by decide)

/-! ## C10: AddClient reconnect-replace -/

/-- Claim C10: when subdomain `s` is already mapped to client `c`, calling
`AddClient` again with the same client id and subdomain (below the
connection limit) does not fail with SubdomainInUse: it succeeds, stores a
fresh connection object for `c`, and leaves the previous connection object
untouched — its `Done` channel stays open and its streams stay live. -/
theorem C10_addclient_replaces (cm : ConnectionManager)
    (clientID s ver pw : String) (i : Nat)
    (hsub : alookup cm.subdomains s = some clientID)
    (_hcli : alookup cm.clients clientID = some i)
    (hi : i < cm.conns.length)
    (hlim : cm.clients.length < cm.maxConnection) :
    AddClient cm clientID s ver pw = .ok (addClientCore cm clientID s ver pw) ∧
    alookup (addClientCore cm clientID s ver pw).1.clients clientID =
      some cm.conns.length ∧
    (addClientCore cm clientID s ver pw).1.conns[cm.conns.length]? =
      some ⟨clientID, s, ver, [], 0, sendQueueCapacity, false, pw⟩ ∧
    (addClientCore cm clientID s ver pw).1.conns[i]? = cm.conns[i]? := by
  have hcond : ¬ (cm.maxConnection ≤ cm.clients.length) := by omega
  refine ⟨?_, ?_, ?_, ?_⟩
  · simp [AddClient, hcond, hsub]
  · simp [addClientCore, alookup_ainsert_self]
  · simp [addClientCore, List.getElem?_concat_length]
  · simp only [addClientCore]
    exact List.getElem?_append_left hi

/-- Witness for C10: re-adding client `a` on its own subdomain `demo`
succeeds and preserves the old connection object. -/
theorem C10_addclient_replaces_witness :
    AddClient cmOccFix "a" "demo" "v2" "" = .ok (addClientCore cmOccFix "a" "demo" "v2" "") ∧
    (addClientCore cmOccFix "a" "demo" "v2" "").1.conns[0]? = cmOccFix.conns[0]? :=
  ⟨(C10_addclient_replaces cmOccFix "a" "demo" "v2" "" 0
      (by decide) (by decide) (by decide) (by decide)).1,
   (C10_addclient_replaces cmOccFix "a" "demo" "v2" "" 0
      (by decide) (by decide) (by decide) (by decide)).2.2.2⟩

/-! ## C2: proxy-loop marker -/

/-- Claim C2 concerns a code bug: the catch-all handler never reads the
`X-TunGo-Proxy` marker (no code in the repository does), so a request that
already carries the marker is forwarded to the peer again whenever the
registry says the owner is remote — the spec requires such a request to be
resolved locally only.  Evaluated here at the failing input: server `s2`,
tenant `demo` owned by `s1`, request to `demo.localhost` carrying the
marker; the handler invokes `ProxyToServer`, and flipping the marker does
not change its behaviour. -/
theorem C2_proxy_marker_ignored :
    (catchAllHandler domFix 1000 regC2Fix (emptyCM 10) reqMarkerFix).1 =
      RouteAction.forwarded recC2Stored ∧
    (catchAllHandler domFix 1000 regC2Fix (emptyCM 10)
        { reqMarkerFix with hasProxyMarker := false }).1 =
      (catchAllHandler domFix 1000 regC2Fix (emptyCM 10) reqMarkerFix).1 := by
  decide

/-! ## C5: tenant-password gate -/

theorem sha256Bytes_length (msg : List Nat) : (sha256Bytes msg).length = 32 := by
  have hfold : ∀ (blocks : List (List Nat)) (h : List Nat), h.length = 8 →
      (blocks.foldl sha256Block h).length = 8 := by
    intro blocks
    induction blocks with
    | nil => intro h hh; exact hh
    | cons b rest ih => intro h hh; exact ih _ (by simp [sha256Block])
  have hlen : ∀ (l : List Nat),
      (l.foldr (fun word acc =>
        [word >>> 24 % 256, word >>> 16 % 256, word >>> 8 % 256, word % 256] ++ acc)
        []).length = 4 * l.length := by
    intro l
    induction l with
    | nil => rfl
    | cons w rest ih =>
      simp only [List.foldr_cons, List.length_append, List.length_cons,
        List.length_nil, ih]
      omega
  simp only [sha256Bytes]
  rw [hlen, hfold _ _ (by rfl)]

theorem hexSha256_ne_empty (s : String) : hexSha256 s ≠ "" := by
  rcases hx : sha256Bytes (strBytes s) with _ | ⟨b, rest⟩
  · have h32 := sha256Bytes_length (strBytes s)
    rw [hx] at h32
    simp at h32
  · intro h
    have hd := congrArg String.data h
    simp [hexSha256, toHexLower, hx] at hd

/-- The catch-all handler on a locally resolved, password-protected tenant
reduces to the password gate. -/
theorem catchAll_gate (domain : String) (now : Nat) (reg : DistState)
    (cm : ConnectionManager) (req : PublicRequest) (sub : String) (i : Nat)
    (client : ClientConn)
    (hsub : extractSubDomain req.host domain = sub)
    (hne : sub ≠ "")
    (hnp : isProxyTo (ShouldProxy now reg sub).1 = false)
    (hcl : GetClientBySubDomain cm sub = some (i, client)) :
    (catchAllHandler domain now reg cm req).1 = gateSpec sub client req i := by
  simp only [catchAllHandler, hsub]
  rw [if_neg hne]
  rcases hsp : ShouldProxy now reg sub with ⟨spr, reg'⟩
  rw [hsp] at hnp
  cases spr with
  | proxyTo info => simp [isProxyTo] at hnp
  | registryErr =>
    simp only [hcl]
    by_cases hpw : client.password = ""
    · simp [gateSpec, hpw]
    · by_cases hprov : req.headerPassword = ""
      · by_cases hck : ((alookup req.cookies ("tungo-auth-" ++ sub)).getD "" != "" &&
            (alookup req.cookies ("tungo-auth-" ++ sub)).getD "" ==
              hexSha256 client.password) = true
        · simp [gateSpec, hpw, hprov, hck]
        · simp only [Bool.not_eq_true] at hck
          simp [gateSpec, hpw, hprov, hck]
      · by_cases heq : req.headerPassword = client.password
        · simp [gateSpec, hpw, hprov, heq]
        · simp [gateSpec, hpw, hprov, heq]
  | noProxy =>
    simp only [hcl]
    by_cases hpw : client.password = ""
    · simp [gateSpec, hpw]
    · by_cases hprov : req.headerPassword = ""
      · by_cases hck : ((alookup req.cookies ("tungo-auth-" ++ sub)).getD "" != "" &&
            (alookup req.cookies ("tungo-auth-" ++ sub)).getD "" ==
              hexSha256 client.password) = true
        · simp [gateSpec, hpw, hprov, hck]
        · simp only [Bool.not_eq_true] at hck
          simp [gateSpec, hpw, hprov, hck]
      · by_cases heq : req.headerPassword = client.password
        · simp [gateSpec, hpw, hprov, heq]
        · simp [gateSpec, hpw, hprov, heq]

/-- Counterexample for claim C5: a wrong `x-tungo-password` header together
with a valid `tungo-auth-{subdomain}` cookie yields the 401 JSON error and
is **not** proxied, contradicting the claim's unconditional cookie clause. -/
theorem C5_counterexample :
    (catchAllHandler domFix 0 regEmptyFix cmPwFix reqWrongHeaderFix).1 =
      RouteAction.wrongPassword401 ∧
    isHandled (catchAllHandler domFix 0 regEmptyFix cmPwFix reqWrongHeaderFix).1 = false := by
  decide

/-- Claim C5 (amended): on a password-protected tenant resolved locally, a
correct `x-tungo-password` header returns the JSON acknowledgement and sets
the `tungo-auth-{subdomain}` cookie to `hex(sha256(password))` with path
`/`, HttpOnly, SameSite=Lax, max-age 24h, without proxying; **when the
header is absent**, a cookie equal to `hex(sha256(password))` lets the
request be proxied; a wrong non-empty header yields 401 with a JSON error
(even when a valid cookie is also present); with neither credential the
handler returns 401 with the password-prompt page. -/
theorem C5_password_gate (domain : String) (now : Nat) (reg : DistState)
    (cm : ConnectionManager) (req : PublicRequest) (sub : String) (i : Nat)
    (client : ClientConn)
    (hsub : extractSubDomain req.host domain = sub)
    (hne : sub ≠ "")
    (hnp : isProxyTo (ShouldProxy now reg sub).1 = false)
    (hcl : GetClientBySubDomain cm sub = some (i, client))
    (hpw : client.password ≠ "") :
    (req.headerPassword = client.password →
      (catchAllHandler domain now reg cm req).1 = .authOkJSON
        { name := "tungo-auth-" ++ sub, value := hexSha256 client.password,
          path := "/", maxAge := 86400, httpOnly := true, secure := false,
          sameSite := "Lax" }) ∧
    (req.headerPassword ≠ "" → req.headerPassword ≠ client.password →
      (catchAllHandler domain now reg cm req).1 = .wrongPassword401) ∧
    (req.headerPassword = "" →
      (alookup req.cookies ("tungo-auth-" ++ sub)).getD "" = hexSha256 client.password →
      (catchAllHandler domain now reg cm req).1 = .handled i) ∧
    (req.headerPassword = "" →
      (alookup req.cookies ("tungo-auth-" ++ sub)).getD "" ≠ hexSha256 client.password →
      (catchAllHandler domain now reg cm req).1 = .passwordPrompt401) := by
  have hmain := catchAll_gate domain now reg cm req sub i client hsub hne hnp hcl
  rw [hmain]
  refine ⟨?_, ?_, ?_, ?_⟩
  · intro h1
    have hh : req.headerPassword ≠ "" := by rw [h1]; exact hpw
    simp [gateSpec, hpw, hh, h1]
  · intro h1 h2
    simp [gateSpec, hpw, h1, h2]
  · intro h1 h2
    have hne2 := hexSha256_ne_empty client.password
    simp [gateSpec, hpw, h1, h2, hne2]
  · intro h1 h2
    simp [gateSpec, hpw, h1, h2]

/-- Witness for C5 (amended): tenant `secure` with password `letmein`; the
correct header gets the JSON acknowledgement with the hash cookie. -/
theorem C5_password_gate_witness :
    (catchAllHandler domFix 0 regEmptyFix cmPwFix reqHeaderFix).1 =
      RouteAction.authOkJSON cookieFix :=
  (C5_password_gate domFix 0 regEmptyFix cmPwFix reqHeaderFix "secure" 0 connPwFix
      (by decide) (by decide) (by decide) (by decide) (by decide)).1 rfl

/-! ## C1: per-subdomain exclusivity -/

theorem alookup_aerase_self {α : Type} (l : List (String × α)) (k : String) :
    alookup (aerase l k) k = none := by
  induction l with
  | nil => rfl
  | cons p rest ih =>
    rcases p with ⟨a, b⟩
    by_cases ha : a = k
    · simp [aerase, ha, ih]
    · simp [aerase, alookup, ha, ih]

theorem subInv_empty (maxC : Nat) : SubInv (emptyCM maxC) := by
  intro c i hci
  cases hci

theorem subInv_addCore (cm : ConnectionManager) (cid sub ver pw : String)
    (havail : alookup cm.subdomains sub = none) (hinv : SubInv cm) :
    SubInv (addClientCore cm cid sub ver pw).1 := by
  intro c i hci
  simp only [addClientCore] at hci ⊢
  by_cases hc : c = cid
  · subst hc
    rw [alookup_ainsert_self] at hci
    have hieq : cm.conns.length = i := by injection hci
    subst hieq
    exact ⟨⟨c, sub, ver, [], 0, sendQueueCapacity, false, pw⟩,
      List.getElem?_concat_length _ _, alookup_ainsert_self _ _ _⟩
  · rw [alookup_ainsert_ne _ _ _ _ hc] at hci
    obtain ⟨o, ho, hso⟩ := hinv c i hci
    have hilt : i < cm.conns.length := by
      by_contra hle
      rw [List.getElem?_eq_none_iff.mpr (by omega)] at ho
      cases ho
    refine ⟨o, ?_, ?_⟩
    · rw [List.getElem?_append_left hilt]
      exact ho
    · by_cases hos : o.subDomain = sub
      · rw [hos, havail] at hso
        cases hso
      · rw [alookup_ainsert_ne _ _ _ _ hos]
        exact hso

theorem subInv_removeClient (cm : ConnectionManager) (rid : String)
    (hinv : SubInv cm) : SubInv (RemoveClient cm rid) := by
  rcases hlook : alookup cm.clients rid with _ | ri
  · simp only [RemoveClient, hlook]
    exact hinv
  · rcases hco : cm.conns[ri]? with _ | conn
    · simp only [RemoveClient, hlook, hco]
      exact hinv
    · simp only [RemoveClient, hlook, hco]
      intro c i hci
      have hcrid : c ≠ rid := by
        intro he
        subst he
        rw [alookup_aerase_self] at hci
        cases hci
      rw [alookup_aerase_ne _ _ _ hcrid] at hci
      obtain ⟨o, ho, hso⟩ := hinv c i hci
      obtain ⟨orid, horid, hsorid⟩ := hinv rid ri hlook
      have horid' : conn = orid := by
        rw [hco] at horid
        injection horid
      subst horid'
      have hir : ri ≠ i := by
        intro he
        subst he
        rw [ho] at horid
        have hoc : o = conn := by injection horid
        subst hoc
        rw [hso] at hsorid
        have : c = rid := by injection hsorid
        exact hcrid this
      refine ⟨o, ?_, ?_⟩
      · rw [List.getElem?_set_ne hir]
        exact ho
      · have hos : o.subDomain ≠ conn.subDomain := by
          intro he
          rw [he, hsorid] at hso
          have : rid = c := by injection hso
          exact hcrid this.symm
        rw [alookup_aerase_ne _ _ _ hos]
        exact hso

theorem subInv_setSameSub (cm : ConnectionManager) (i0 : Nat) (conn conn' : ClientConn)
    (hco : cm.conns[i0]? = some conn) (hsame : conn'.subDomain = conn.subDomain)
    (hinv : SubInv cm) :
    SubInv { cm with conns := cm.conns.set i0 conn' } := by
  intro c i hci
  obtain ⟨o, ho, hso⟩ := hinv c i hci
  by_cases hie : i0 = i
  · subst hie
    have hlt : i0 < cm.conns.length := by
      by_contra hle
      rw [List.getElem?_eq_none_iff.mpr (by omega)] at hco
      cases hco
    have hoc : conn = o := by
      rw [hco] at ho
      injection ho
    subst hoc
    refine ⟨conn', ?_, ?_⟩
    · simp [List.getElem?_set_self, hlt]
    · rw [hsame]
      exact hso
  · refine ⟨o, ?_, ?_⟩
    · simpa [List.getElem?_set_ne hie] using ho
    · exact hso

theorem subInv_addStream (cm : ConnectionManager) (i0 : Nat) (sid p r : String)
    (hinv : SubInv cm) : SubInv (AddStream cm i0 sid p r) := by
  rcases hco : cm.conns[i0]? with _ | conn
  · simp only [AddStream, hco]
    exact hinv
  · simp only [AddStream, hco]
    exact subInv_setSameSub cm i0 conn _ hco rfl hinv

theorem subInv_removeStream (cm : ConnectionManager) (i0 : Nat) (sid : String)
    (hinv : SubInv cm) : SubInv (RemoveStream cm i0 sid) := by
  rcases hco : cm.conns[i0]? with _ | conn
  · simp only [RemoveStream, hco]
    exact hinv
  · rcases hst : alookup conn.streams sid with _ | st
    · simp only [RemoveStream, hco, hst]
      exact hinv
    · simp only [RemoveStream, hco, hst]
      exact subInv_setSameSub cm i0 conn _ hco rfl hinv

theorem chooseSub_avail (cfg : ServerCfg) (cm : ConnectionManager)
    (hello : ClientHello) (rnd : List Nat) (cid : String) (h : ServerHello)
    (c s : String) (hp : chooseSubDomain cfg cm hello rnd cid = .pass h c s) :
    alookup cm.subdomains s = none := by
  unfold chooseSubDomain at hp
  rcases hsd : hello.subDomain with _ | s0
  · simp only [hsd] at hp
    by_cases hav : IsSubDomainAvailable cm (GenerateRandomSubDomainBytes rnd) = true
    · simp [hav] at hp
      obtain ⟨h1, h2, h3⟩ := hp
      subst h3
      simpa [IsSubDomainAvailable, Option.isNone_iff_eq_none] using hav
    · simp [hav] at hp
  · simp only [hsd] at hp
    rcases hval : ValidateSubDomain s0 with _ | e
    · simp only [hval] at hp
      by_cases hav : IsSubDomainAvailable cm s0 = true
      · simp [hav] at hp
        obtain ⟨h1, h2, h3⟩ := hp
        subst h3
        simpa [IsSubDomainAvailable, Option.isNone_iff_eq_none] using hav
      · simp [hav] at hp
    · simp only [hval] at hp
      cases hp

theorem authenticate_pass_avail (cfg : ServerCfg) (cm : ConnectionManager)
    (hello : ClientHello) (rnd : List Nat) (h : ServerHello) (c s : String)
    (hp : authenticate cfg cm hello rnd = .pass h c s) :
    alookup cm.subdomains s = none := by
  unfold authenticate at hp
  rcases hct : hello.clientType with _ | _
  · simp only [hct] at hp
    rcases hsk : hello.secretKey with _ | key
    · simp only [hsk] at hp
      cases hp
    · simp only [hsk] at hp
      exact chooseSub_avail cfg cm hello rnd _ h c s hp
  · simp only [hct] at hp
    by_cases hall : cfg.allowAnonymous = true
    · have hp' : chooseSubDomain cfg cm hello rnd hello.id = .pass h c s := by
        simpa [hall] using hp
      exact chooseSub_avail cfg cm hello rnd _ h c s hp'
    · simp [hall] at hp

theorem subInv_processHello (cfg : ServerCfg) (cm : ConnectionManager)
    (hello : ClientHello) (rnd : List Nat) (hinv : SubInv cm) :
    SubInv (processHello cfg cm hello rnd).1 := by
  rcases hauth : authenticate cfg cm hello rnd with h | ⟨h, cid, sub⟩
  · simp only [processHello, hauth]
    exact hinv
  · have havail := authenticate_pass_avail cfg cm hello rnd h cid sub hauth
    simp only [processHello, hauth]
    rcases hadd : AddClient cm cid sub hello.clientVersion (hello.password.getD "") with e | pr
    · cases e <;> simp only [hadd] <;> exact hinv
    · simp only [hadd]
      have : pr = addClientCore cm cid sub hello.clientVersion (hello.password.getD "") := by
        simp only [AddClient, havail] at hadd
        by_cases hlim : cm.maxConnection ≤ cm.clients.length
        · rw [if_pos hlim] at hadd
          cases hadd
        · rw [if_neg hlim] at hadd
          injection hadd with h2
          exact h2.symm
      rw [this]
      exact subInv_addCore cm cid sub _ _ havail hinv

theorem subInv_runOp (cm : ConnectionManager) (op : MgrOp) (hinv : SubInv cm) :
    SubInv (runMgrOp cm op) := by
  cases op with
  | helloOp cfg h rnd => exact subInv_processHello cfg cm h rnd hinv
  | dropOp cid => exact subInv_removeClient cm cid hinv
  | addStreamOp i sid p r => exact subInv_addStream cm i sid p r hinv
  | removeStreamOp i sid => exact subInv_removeStream cm i sid hinv

theorem subInv_runOps (ops : List MgrOp) :
    ∀ cm, SubInv cm → SubInv (runMgrOps cm ops) := by
  induction ops with
  | nil => intro cm h; exact h
  | cons op rest ih =>
    intro cm h
    exact ih (runMgrOp cm op) (subInv_runOp cm op h)

theorem perSub_of_subInv (cm : ConnectionManager) (hinv : SubInv cm) :
    PerSubUnique cm := by
  intro s c1 c2 i1 i2 o1 o2 h1 h2 ho1 ho2 hs1 hs2
  obtain ⟨o1', ho1', hso1⟩ := hinv c1 i1 h1
  obtain ⟨o2', ho2', hso2⟩ := hinv c2 i2 h2
  have e1 : o1 = o1' := by rw [ho1] at ho1'; injection ho1'
  have e2 : o2 = o2' := by rw [ho2] at ho2'; injection ho2'
  subst e1; subst e2
  rw [hs1] at hso1
  rw [hs2] at hso2
  rw [hso1] at hso2
  injection hso2

/-- Counterexample for claim C1: two fresh servers each accept a hello for
subdomain `demo` — the availability check consults only the local
connection manager, never the shared registry — leaving the cluster with
two live control connections for `demo`. -/
theorem C1_counterexample :
    clusterStep2.2.type = ServerHelloType.success ∧
    clusterLiveConns clusterStep2.1 "demo" = 2 := by
  decide

/-- Claim C1 (amended): per server, at most one live control connection
exists for any subdomain in every reachable manager state, and a hello
claiming a subdomain already held **on the receiving server** is rejected
with `sub_domain_in_use` before a second connection is added (the manager
is left unchanged).  Cluster-wide exclusivity does not hold: the
availability check is local only. -/
theorem C1_per_server_uniqueness :
    (∀ (maxC : Nat) (ops : List MgrOp), PerSubUnique (runMgrOps (emptyCM maxC) ops)) ∧
    (∀ (cfg : ServerCfg) (cm : ConnectionManager) (hello : ClientHello)
        (rnd : List Nat) (s c : String),
      hello.subDomain = some s → ValidateSubDomain s = none →
      (hello.clientType = .auth → hello.secretKey.isSome) →
      (hello.clientType = .anonymous → cfg.allowAnonymous = true) →
      alookup cm.subdomains s = some c →
      processHello cfg cm hello rnd =
        (cm, NewErrorHello .subDomainInUse "Subdomain is already in use")) := by
  constructor
  · intro maxC ops
    exact perSub_of_subInv _ (subInv_runOps ops (emptyCM maxC) (subInv_empty maxC))
  · intro cfg cm hello rnd s c hsub hval hauth hanon hocc
    have hnav : ¬ (IsSubDomainAvailable cm s = true) := by
      simp [IsSubDomainAvailable, hocc]
    rcases hct : hello.clientType with _ | _
    · rcases hsk : hello.secretKey with _ | key
      · have := hauth hct
        simp [hsk] at this
      · simp [processHello, authenticate, hct, hsk, chooseSubDomain, hsub, hval, hnav]
    · have hallow := hanon hct
      simp [processHello, authenticate, hct, hallow, chooseSubDomain, hsub, hval, hnav]

/-- Witness for C1 (amended): after one hello for `demo`, a second hello for
`demo` on the same server is rejected with `sub_domain_in_use`; and the
run consisting of that one hello satisfies per-subdomain uniqueness at the
concrete indices. -/
theorem C1_per_server_uniqueness_witness :
    processHello cfgFix cmOccFix helloBFix [] =
      (cmOccFix, NewErrorHello .subDomainInUse "Subdomain is already in use") :=
  C1_per_server_uniqueness.2 cfgFix cmOccFix helloBFix [] "demo" "a"
    rfl (by decide) (by intro h; cases h) (by intro h; rfl) (by decide)

end TunGo



